import Mathlib

/-!
Verification of the task-orchestration layer of `src/src/main/sloth/sloth.py`
(the `Sloth` class wrapping the C sloth VDF library via cffi).

Shallow embedding conventions:
* Byte sequences are `List Nat`.
* The external C primitive (`lib.sloth`, `lib.sloth_verification`) is an
  opaque collaborator, modelled by a `Primitive` structure.  Its operations
  return an `Except` (a primitive-internal failure surfaces as a Python-level
  exception) together with the list of progress deltas it reports through the
  `update_progress` callback.  cffi passes Python `None` as a NULL pointer,
  so the `data` and `final_hash` arguments are `Option Bytes`.
* The C call `lib.sloth(witness_buf, witness_size_ptr, out, data, bits,
  iterations)` writes a 64-byte digest into `out` and a witness of
  `witness_size` bytes; we model it as returning the already-truncated
  witness bytes together with the digest bytes.
* Python `assert` failures are `PyErr.assertionError`.
* Python `%` on integers with positive modulus agrees with Lean's `Int.emod`,
  so `bits % 512` is `bits % 512` on `Int`.
-/

/-- Byte sequences (Python `bytes`). -/
abbrev Bytes := List Nat

/-- Python-level exceptions that the orchestration layer can see. -/
inductive PyErr where
  | assertionError
  | primFailure
deriving DecidableEq, Repr

/-- The kind of task passed to `Sloth._run`. -/
inductive TaskKind where
  | computeK
  | verifyK
deriving DecidableEq, Repr

/-- The opaque C primitive (`lib` in the source).  Each operation returns its
result together with the progress deltas it reported via the
`update_progress` callback during the call. -/
structure Primitive where
  sloth : Option Bytes → Int → Int → Except PyErr (Bytes × Bytes) × List Int
  sloth_verification :
    Bytes → Nat → Option Bytes → Option Bytes → Int → Int → Except PyErr Int × List Int

/-- The mutable fields of a `Sloth` object (the `_thread` handle is tracked
by the execution models below, since it belongs to the threading layer). -/
structure Sloth where
  data : Option Bytes
  bits : Int
  iterations : Int
  final_hash : Option Bytes
  witness : Option Bytes
  valid : Option Bool
  blocking : Bool
deriving DecidableEq, Repr

/-- A value passed as the `data` constructor argument (the setter accepts
bytes, text, or anything stringifiable). -/
inductive DataIn where
  | bytes (b : Bytes)
  | str (s : String)
  | other (repr : String)
deriving DecidableEq, Repr

/-- UTF-8 encoding of a Python string (`value.encode("utf8")`). -/
def encodeUtf8 (s : String) : Bytes :=
  s.toUTF8.toList.map (fun c => c.toNat)

/-- The `data` property setter: bytes pass through, anything else is
stringified (if needed) and UTF-8 encoded. -/
def set_data : DataIn → Bytes
  | .bytes b => b
  | .str s => encodeUtf8 s
  | .other r => encodeUtf8 r

/-- A Python value passed for `bits` / `iterations`: either an `int` or
something else (so `isinstance(-, int)` can be modelled). -/
inductive PyVal where
  | int (n : Int)
  | nonInt (repr : String)
deriving DecidableEq, Repr

def PyVal.isInt : PyVal → Bool
  | .int _ => true
  | .nonInt _ => false

def PyVal.toInt : PyVal → Int
  | .int n => n
  | .nonInt _ => 0

/-- `Sloth.__init__`: asserts `isinstance(bits, int)`, `bits % 512 == 0`,
`isinstance(iterations, int)` (in that order, before any field assignment),
then initializes the fields; `data`, when given, goes through the setter.
The `_thread` field is initialized to `None` by the execution models. -/
def Sloth.init (data : Option DataIn) (bits iterations : PyVal)
    (final_hash witness : Option Bytes) (blocking : Bool) : Except PyErr Sloth :=
  match bits with
  | .nonInt _ => .error .assertionError
  | .int b =>
    if b % 512 = 0 then
      match iterations with
      | .nonInt _ => .error .assertionError
      | .int i =>
        .ok { data := data.map set_data
              bits := b
              iterations := i
              final_hash := final_hash
              witness := witness
              valid := none
              blocking := blocking }
    else .error .assertionError

/-- The lock-guarded publication step of `compute_task`: one atomic update
(`with self._lock:`) setting `witness` and `final_hash` together. -/
def publish_compute (s : Sloth) (w h : Bytes) : Sloth :=
  { s with witness := some w, final_hash := some h }

/-- The lock-guarded publication step of `verify_task`: one atomic update
setting `valid` to `verification == 1`. -/
def publish_verify (s : Sloth) (r : Int) : Sloth :=
  { s with valid := some (decide (r = 1)) }

/-- Progress-sink events observable on the global `progressbar`. -/
inductive PEvent where
  | init (total : Int)
  | update (delta : Int)
  | close
deriving DecidableEq, Repr

/-- The events produced when the primitive reports the deltas `ds` through
`update_progress`.  When the module-level `PROGRESS` toggle is false the
callback is compiled as `pass`; when true it updates the global progressbar
only if one is present (`pb`). -/
def pbEvents (progress pb : Bool) (ds : List Int) : List PEvent :=
  if progress then (if pb then ds.map PEvent.update else []) else []

/-- `Sloth._run` followed by the inline `wrapped_task()` call, i.e. the
blocking-mode execution path (`self.blocking = True`, so the initial
`self.wait()` is skipped and no thread is spawned).  Parameters: `progress`
is the module toggle `PROGRESS`, `pb0` records whether the global
`progressbar` was already set before this call.  Returns the task outcome
(the new field state, or the propagated exception) and the progress-event
log: `tqdm(total=self.iterations)` first (when `PROGRESS`), then the deltas
forwarded by `update_progress`, then — only when `task()` returned without
raising — `progressbar.close()`. -/
def run_blocking (progress pb0 : Bool) (prim : Primitive) (kind : TaskKind)
    (s : Sloth) : Except PyErr Sloth × List PEvent :=
  let initEvs : List PEvent := if progress then [.init s.iterations] else []
  let pb : Bool := if progress then true else pb0
  match kind with
  | .computeK =>
    match prim.sloth s.data s.bits s.iterations with
    | (.ok (w, h), ds) =>
      (.ok (publish_compute s w h),
        initEvs ++ pbEvents progress pb ds ++ (if progress then [.close] else []))
    | (.error e, ds) => (.error e, initEvs ++ pbEvents progress pb ds)
  | .verifyK =>
    match s.witness with
    | none => (.error .assertionError, initEvs)
    | some w =>
      match prim.sloth_verification w w.length s.final_hash s.data s.bits s.iterations with
      | (.ok r, ds) =>
        (.ok (publish_verify s r),
          initEvs ++ pbEvents progress pb ds ++ (if progress then [.close] else []))
      | (.error e, ds) => (.error e, initEvs ++ pbEvents progress pb ds)

/-- The collaborator contract of §6 for the pair of primitive operations:
any witness/digest pair produced by `compute` on some data verifies (the
verification call returns the success sentinel 1) with the same data,
bit width and iteration count. -/
def PrimContract (prim : Primitive) : Prop :=
  ∀ d b i w h ds, prim.sloth (some d) b i = (.ok (w, h), ds) →
    ∃ ds2, prim.sloth_verification w w.length (some h) (some d) b i = (.ok 1, ds2)

/-- A concrete primitive that always succeeds and always verifies. -/
def primOK : Primitive :=
  { sloth := fun _ _ _ => (.ok ([7], List.replicate 64 0), [])
    sloth_verification := fun _ _ _ _ _ _ => (.ok 1, []) }

/-- A concrete primitive that always fails internally. -/
def primBad : Primitive :=
  { sloth := fun _ _ _ => (.error .primFailure, [])
    sloth_verification := fun _ _ _ _ _ _ => (.error .primFailure, []) }

/-- A concrete primitive whose verification returns the failure code 0. -/
def primZero : Primitive :=
  { sloth := fun _ _ _ => (.ok ([7], List.replicate 64 0), [])
    sloth_verification := fun _ _ _ _ _ _ => (.ok 0, []) }

/-- A concrete freshly constructed task (data `b"h"`, 512 bits, 1 iteration,
blocking mode). -/
def sC1 : Sloth :=
  { data := some [104], bits := 512, iterations := 1,
    final_hash := none, witness := none, valid := none, blocking := true }

/-- A concrete task carrying a witness, digest and data, ready for
verification. -/
def sVer : Sloth :=
  { data := some [1], bits := 512, iterations := 1,
    final_hash := some [2], witness := some [3], valid := none, blocking := true }

/-- An entry of the caller's script of public calls on one background-mode
task: `op k` is a `compute()`/`verify()` call, `wait` is `wait()` with no
timeout. -/
inductive Act where
  | op (k : TaskKind)
  | wait
deriving DecidableEq, Repr

/-- The lifecycle of one spawned worker thread: not yet reached the
primitive call, inside the primitive call (since a given clock tick, with
the field values it read at the call), or terminated with its task's
outcome. -/
inductive WStatus where
  | queued
  | inPrim (since : Nat) (snap : Sloth)
  | finished (res : Except PyErr Unit)
deriving Repr

structure Worker where
  kind : TaskKind
  status : WStatus
deriving Repr

def Worker.isFinished : Worker → Bool
  | ⟨_, .finished _⟩ => true
  | _ => false

/-- Where the caller is: between public calls, or inside `_run` executing
the initial `self.wait()` (the join of the current `_thread`) for a new
operation of kind `k`. -/
inductive CallerPhase where
  | idle
  | joining (k : TaskKind)
deriving Repr

/-- A configuration of the background-mode interleaving semantics: global
clock, the task's fields, every thread ever spawned (in spawn order), the
index the `_thread` attribute points at, the caller position, the remaining
script, and the (begin, end) clock intervals of completed primitive calls. -/
structure Config where
  clock : Nat
  st : Sloth
  workers : List Worker
  cur : Option Nat
  phase : CallerPhase
  script : List Act
  intervals : List (Nat × Nat)
deriving Repr

/-- The body of a worker's task function, given the fields `snap` it read
when its primitive call began and the fields `st` at publication time: the
primitive result is published atomically under the lock, a primitive
exception leaves the fields untouched, and for `verify` the
`assert self.witness is not None` precedes the primitive call. -/
def runTaskBody (prim : Primitive) (k : TaskKind) (snap st : Sloth) :
    Sloth × Except PyErr Unit :=
  match k with
  | .computeK =>
    match (prim.sloth snap.data snap.bits snap.iterations).1 with
    | .ok (w, h) => (publish_compute st w h, .ok ())
    | .error e => (st, .error e)
  | .verifyK =>
    match snap.witness with
    | none => (st, .error .assertionError)
    | some w =>
      match (prim.sloth_verification w w.length snap.final_hash snap.data
          snap.bits snap.iterations).1 with
      | .ok r => (publish_verify st r, .ok ())
      | .error e => (st, .error e)

/-- Whether a worker of kind `k` reaches its primitive call on fields `s`
(a `verify` worker first passes the witness-presence assert). -/
def canBegin (k : TaskKind) (s : Sloth) : Bool :=
  match k with
  | .computeK => true
  | .verifyK => s.witness.isSome

/-- `Thread.join(timeout=None)` on the current `_thread` can return: there
is no current thread, or it has terminated. -/
def joinReady (c : Config) : Prop :=
  match c.cur with
  | none => True
  | some i => ∃ w, c.workers[i]? = some w ∧ w.isFinished = true

/-- Small-step interleaving semantics of one background-mode `Sloth` object.
The caller executes its script: a `compute()`/`verify()` call is `_run`,
i.e. `self.wait()` — an unbounded join of the current `_thread` — followed
by spawning a fresh daemon worker and storing it in `_thread`; `wait` is a
join by itself.  Spawned workers (including any that a buggy protocol would
orphan) run concurrently: they enter the primitive call, and later finish,
atomically publishing their result.  Every step advances the clock. -/
inductive Step (prim : Primitive) : Config → Config → Prop where
  | workerBegin (c : Config) (i : Nat) (w : Worker)
      (hw : c.workers[i]? = some w) (hq : w.status = .queued)
      (hcan : canBegin w.kind c.st = true) :
      Step prim c { c with clock := c.clock + 1,
                           workers := c.workers.set i
                             { w with status := .inPrim c.clock c.st } }
  | workerAssertFail (c : Config) (i : Nat) (w : Worker)
      (hw : c.workers[i]? = some w) (hq : w.status = .queued)
      (hk : w.kind = .verifyK) (hwit : c.st.witness = none) :
      Step prim c { c with clock := c.clock + 1,
                           workers := c.workers.set i
                             { w with
                               status := .finished (.error .assertionError) } }
  | workerEnd (c : Config) (i : Nat) (w : Worker) (since : Nat) (snap : Sloth)
      (st2 : Sloth) (res : Except PyErr Unit)
      (hw : c.workers[i]? = some w) (hs : w.status = .inPrim since snap)
      (hrun : runTaskBody prim w.kind snap c.st = (st2, res)) :
      Step prim c { c with clock := c.clock + 1, st := st2,
                           workers := c.workers.set i
                             { w with status := .finished res },
                           intervals := c.intervals ++ [(since, c.clock)] }
  | callOp (c : Config) (k : TaskKind) (rest : List Act)
      (hph : c.phase = .idle) (hs : c.script = .op k :: rest) :
      Step prim c { c with clock := c.clock + 1, phase := .joining k,
                           script := rest }
  | joinDone (c : Config) (k : TaskKind)
      (hph : c.phase = .joining k) (hj : joinReady c) :
      Step prim c { c with clock := c.clock + 1, phase := .idle,
                           workers := c.workers ++ [⟨k, .queued⟩],
                           cur := some c.workers.length }
  | waitDone (c : Config) (rest : List Act)
      (hph : c.phase = .idle) (hs : c.script = .wait :: rest)
      (hj : joinReady c) :
      Step prim c { c with clock := c.clock + 1, script := rest }

/-- A freshly constructed background-mode task: no worker ever spawned,
`_thread = None`, caller idle. -/
def initConfig (s0 : Sloth) (script : List Act) : Config :=
  { clock := 0, st := s0, workers := [], cur := none, phase := .idle,
    script := script, intervals := [] }

/-- The machine invariant: `_thread` points at the most recently spawned
worker; all earlier workers have terminated; completed primitive intervals
are well-formed, chronologically ordered and in the past; a worker inside
the primitive started after every completed interval ended. -/
structure MachInv (c : Config) : Prop where
  curLast : c.workers ≠ [] → c.cur = some (c.workers.length - 1)
  finishedBefore : ∀ (i : Nat) (w : Worker), c.workers[i]? = some w →
    i + 1 < c.workers.length → w.isFinished = true
  wfLe : ∀ p ∈ c.intervals, p.1 ≤ p.2
  wfOrd : c.intervals.Pairwise (fun a b => a.2 ≤ b.1)
  endsLE : ∀ p ∈ c.intervals, p.2 ≤ c.clock
  active : ∀ (i : Nat) (w : Worker), c.workers[i]? = some w →
    ∀ (t : Nat) (snap : Sloth), w.status = WStatus.inPrim t snap →
    t ≤ c.clock ∧ ∀ p ∈ c.intervals, p.2 ≤ t

/-- A background-mode task with no witness set (data, bits, iterations,
digest present). -/
def s3 : Sloth :=
  { data := some [104], bits := 512, iterations := 1,
    final_hash := some [2], witness := none, valid := none, blocking := false }

def c3b : Config :=
  { initConfig s3 [Act.op .verifyK] with clock := 1, phase := .joining .verifyK,
                                         script := [] }

def c3c : Config :=
  { c3b with clock := 2, phase := .idle, workers := [⟨.verifyK, .queued⟩],
             cur := some 0 }

def c3d : Config :=
  { c3c with clock := 3,
             workers := [⟨.verifyK, .finished (.error .assertionError)⟩] }

/-- A background-mode task ready for `compute()`. -/
def s5 : Sloth :=
  { data := some [104], bits := 512, iterations := 1,
    final_hash := none, witness := none, valid := none, blocking := false }

def c5b : Config :=
  { initConfig s5 [Act.op .computeK, Act.wait] with
      clock := 1, phase := .joining .computeK, script := [Act.wait] }

def c5c : Config :=
  { c5b with clock := 2, phase := .idle, workers := [⟨.computeK, .queued⟩],
             cur := some 0 }

def c5d : Config :=
  { c5c with clock := 3, workers := [⟨.computeK, .inPrim 2 s5⟩] }

def c5e : Config :=
  { c5d with clock := 4, st := s5,
             workers := [⟨.computeK, .finished (.error .primFailure)⟩],
             intervals := [(2, 3)] }

def c5f : Config :=
  { c5e with clock := 5, script := [] }

/-- A background-mode task ready for `verify()` (witness and digest set). -/
def s6 : Sloth :=
  { data := some [1], bits := 512, iterations := 1,
    final_hash := some [2], witness := some [3], valid := none,
    blocking := false }

def v5b : Config :=
  { initConfig s6 [Act.op .verifyK, Act.wait] with
      clock := 1, phase := .joining .verifyK, script := [Act.wait] }

def v5c : Config :=
  { v5b with clock := 2, phase := .idle, workers := [⟨.verifyK, .queued⟩],
             cur := some 0 }

def v5d : Config :=
  { v5c with clock := 3, workers := [⟨.verifyK, .inPrim 2 s6⟩] }

def v5e : Config :=
  { v5d with clock := 4, st := s6,
             workers := [⟨.verifyK, .finished (.error .primFailure)⟩],
             intervals := [(2, 3)] }

def v5f : Config :=
  { v5e with clock := 5, script := [] }

/-- A `Sloth` object together with its `_thread` attribute. -/
structure TaskObj where
  fields : Sloth
  thread : Option Unit
deriving Repr

/-- Object construction: field initialization ends with `self._thread = None`. -/
def mkTask (s : Sloth) : TaskObj :=
  { fields := s, thread := none }

/-- `Sloth.wait(timeout)`: `if self._thread is not None: self._thread.join(timeout)`.
The boolean records whether a join was performed; with `_thread = None` the
call returns immediately without joining, whatever the timeout. -/
def wait_call (t : TaskObj) (timeout : Option Nat) : TaskObj × Bool :=
  match t.thread with
  | none => (t, false)
  | some _ => (t, true)

/-- A public call on a blocking-mode task. -/
inductive BAct where
  | computeA
  | verifyA
  | waitA (timeout : Option Nat)
deriving DecidableEq, Repr

/-- One public call on a blocking-mode task: `compute()`/`verify()` run
`_run` inline (`self.blocking` is true, so the initial `self.wait()` is
skipped and `wrapped_task()` is called directly; on an exception the fields
are left as they were); `wait(timeout)` tests `_thread`.  No branch of the
blocking path ever assigns `_thread`. -/
def bstep (progress pb0 : Bool) (prim : Primitive) (t : TaskObj) : BAct → TaskObj
  | .computeA =>
    match (run_blocking progress pb0 prim .computeK t.fields).1 with
    | .ok s2 => { t with fields := s2 }
    | .error _ => t
  | .verifyA =>
    match (run_blocking progress pb0 prim .verifyK t.fields).1 with
    | .ok s2 => { t with fields := s2 }
    | .error _ => t
  | .waitA timeout => (wait_call t timeout).1

/-- A sequence of public calls on a blocking-mode task. -/
def execB (progress pb0 : Bool) (prim : Primitive) : List BAct → TaskObj → TaskObj
  | [], t => t
  | a :: rest, t => execB progress pb0 prim rest (bstep progress pb0 prim t a)

/-- Helper: a successful blocking `compute()` run comes from a successful
primitive call, and the new state is exactly the guarded publication. -/
theorem run_blocking_computeK_ok {progress pb0 : Bool} {prim : Primitive}
    {s s' : Sloth} {evs : List PEvent}
    (hrun : run_blocking progress pb0 prim .computeK s = (.ok s', evs)) :
    ∃ w h64 ds, prim.sloth s.data s.bits s.iterations = (.ok (w, h64), ds) ∧
      s' = publish_compute s w h64 := by
  cases hres : prim.sloth s.data s.bits s.iterations with
  | mk res ds =>
    cases res with
    | error e => simp [run_blocking, hres] at hrun
    | ok p =>
      cases p with
      | mk w h64 =>
        simp [run_blocking, hres] at hrun
        exact ⟨w, h64, ds, rfl, hrun.1.symm⟩

/-- Helper: no `PEvent.close` ever comes out of the delta-forwarding path. -/
theorem count_close_pbEvents (progress pb : Bool) (ds : List Int) :
    (pbEvents progress pb ds).count PEvent.close = 0 := by
  unfold pbEvents
  by_cases hp : progress <;> by_cases hb : pb <;> simp [hp, hb]
  all_goals
    rw [List.count_eq_zero]
    intro hmem
    rcases List.mem_map.mp hmem with ⟨d, _, hd⟩
    exact PEvent.noConfusion hd

theorem primOK_contract : PrimContract primOK := by
  intro d b i w h ds hc
  exact ⟨[], rfl⟩

/-- C1: for a task with data set, valid bit width and positive iterations,
under the ComputationPrimitive contract, a successful `compute()` followed by
`verify()` on the produced witness/digest sets `valid` to `true`. -/
theorem C1_compute_then_verify_valid (progress pb0 progress2 pb2 : Bool)
    (prim : Primitive) (s s1 : Sloth) (d : Bytes) (evs : List PEvent)
    (hd : s.data = some d)
    (hbitsPos : 0 < s.bits) (hbitsMul : s.bits % 512 = 0) (hiter : 0 < s.iterations)
    (hcontract : PrimContract prim)
    (hc : run_blocking progress pb0 prim .computeK s = (.ok s1, evs)) :
    ∃ s2 evs2, run_blocking progress2 pb2 prim .verifyK s1 = (.ok s2, evs2) ∧
      s2.valid = some true := by
  obtain ⟨w, h64, ds, hsloth, hs1⟩ := run_blocking_computeK_ok hc
  rw [hd] at hsloth
  obtain ⟨ds2, hver⟩ := hcontract d s.bits s.iterations w h64 ds hsloth
  have hw : s1.witness = some w := by rw [hs1]; rfl
  have hh : s1.final_hash = some h64 := by rw [hs1]; rfl
  have hdata1 : s1.data = some d := by rw [hs1, publish_compute]; simpa using hd
  have hbits1 : s1.bits = s.bits := by rw [hs1]; rfl
  have hiter1 : s1.iterations = s.iterations := by rw [hs1]; rfl
  have hver1 : prim.sloth_verification w w.length s1.final_hash s1.data s1.bits
      s1.iterations = (.ok 1, ds2) := by
    rw [hh, hdata1, hbits1, hiter1]; exact hver
  have hrun : run_blocking progress2 pb2 prim .verifyK s1 =
      (.ok (publish_verify s1 1),
        (if progress2 then [PEvent.init s1.iterations] else []) ++
          pbEvents progress2 (if progress2 then true else pb2) ds2 ++
          (if progress2 then [PEvent.close] else [])) := by
    simp [run_blocking, hw, hver1]
  exact ⟨_, _, hrun, by simp [publish_verify]⟩

/-- C1 witness: the concrete run of `compute()` then `verify()` with
`primOK` on `sC1` yields `valid = true`. -/
theorem C1_witness :
    ∃ s2 evs2, run_blocking false false primOK .verifyK
        (publish_compute sC1 [7] (List.replicate 64 0)) = (.ok s2, evs2) ∧
      s2.valid = some true :=
  C1_compute_then_verify_valid false false false false primOK sC1
    (publish_compute sC1 [7] (List.replicate 64 0)) [104] []
    rfl (by decide) (by decide) (by decide) primOK_contract rfl

/-- C2 counterexample: constructing with `bits = 2048` (a positive multiple
of 512) and `iterations = 0` — which is not a positive integer — succeeds,
although the claim says construction must fail then.  (Likewise the
constructor never checks positivity of `bits`.) -/
theorem C2_counterexample :
    (Sloth.init none (.int 2048) (.int 0) none none true).isOk = true ∧
    (2048 : Int) % 512 = 0 ∧ (0 : Int) < 2048 ∧ ¬ ((0 : Int) < 0) := by
  decide

/-- C2 amended: construction fails (with the constructor's assertion error)
exactly when `bits` is not an integer, `bits` is not an integer multiple of
512, or `iterations` is not an integer — positivity is never checked; the
failure happens at construction time, and on success every field is exactly
its initialized value (no partial or deferred initialization). -/
theorem C2_init_characterization (data : Option DataIn) (bits iterations : PyVal)
    (fh w : Option Bytes) (bl : Bool) :
    ((Sloth.init data bits iterations fh w bl).isOk = true ↔
      (bits.isInt = true ∧ bits.toInt % 512 = 0 ∧ iterations.isInt = true)) ∧
    (∀ s, Sloth.init data bits iterations fh w bl = .ok s →
      s.data = data.map set_data ∧ s.bits = bits.toInt ∧
      s.iterations = iterations.toInt ∧ s.final_hash = fh ∧ s.witness = w ∧
      s.valid = none ∧ s.blocking = bl) := by
  cases bits with
  | nonInt r => simp [Sloth.init, PyVal.isInt, Except.isOk, Except.toBool]
  | int b =>
    by_cases hb : b % 512 = 0
    · cases iterations with
      | nonInt r => simp [Sloth.init, PyVal.isInt, Except.isOk, Except.toBool, hb]
      | int i =>
        constructor
        · simp [Sloth.init, PyVal.isInt, PyVal.toInt, Except.isOk, Except.toBool, hb]
        · intro s hs
          simp [Sloth.init, hb] at hs
          rw [← hs]
          simp [PyVal.toInt]
    · cases iterations <;> simp [Sloth.init, PyVal.isInt, PyVal.toInt, Except.isOk, Except.toBool, hb]

/-- C2 amended witness: the characterization instantiated at a concrete
fully-valid construction. -/
theorem C2_init_characterization_witness :
    ((Sloth.init none (.int 1024) (.int 10) none none true).isOk = true ↔
      ((PyVal.int 1024).isInt = true ∧ (PyVal.int 1024).toInt % 512 = 0 ∧
        (PyVal.int 10).isInt = true)) ∧
    (∀ s, Sloth.init none (.int 1024) (.int 10) none none true = .ok s →
      s.data = (none : Option DataIn).map set_data ∧ s.bits = (PyVal.int 1024).toInt ∧
      s.iterations = (PyVal.int 10).toInt ∧ s.final_hash = none ∧ s.witness = none ∧
      s.valid = none ∧ s.blocking = true) :=
  C2_init_characterization none (.int 1024) (.int 10) none none true

/-- C6: once `witness`, `digest`, `data`, `bits`, `iterations` are set and the
primitive's verification call returns the code `r`, `verify()` completes
without an exception and sets `valid` to `true` iff `r` is the success
sentinel 1; any other return code (e.g. an internal error code) gives
`valid = false`. -/
theorem C6_valid_iff_sentinel (progress pb0 : Bool) (prim : Primitive) (s : Sloth)
    (w h64 d : Bytes) (r : Int) (ds : List Int)
    (hw : s.witness = some w) (hh : s.final_hash = some h64) (hd : s.data = some d)
    (hr : prim.sloth_verification w w.length (some h64) (some d) s.bits s.iterations
      = (.ok r, ds)) :
    ∃ s' evs, run_blocking progress pb0 prim .verifyK s = (.ok s', evs) ∧
      (s'.valid = some true ↔ r = 1) ∧ (r ≠ 1 → s'.valid = some false) := by
  have hr' : prim.sloth_verification w w.length s.final_hash s.data s.bits s.iterations
      = (.ok r, ds) := by rw [hh, hd]; exact hr
  have hrun : run_blocking progress pb0 prim .verifyK s =
      (.ok (publish_verify s r),
        (if progress then [PEvent.init s.iterations] else []) ++
          pbEvents progress (if progress then true else pb0) ds ++
          (if progress then [PEvent.close] else [])) := by
    simp [run_blocking, hw, hr']
  refine ⟨_, _, hrun, ?_, ?_⟩
  · simp [publish_verify]
  · intro hne
    simp [publish_verify, hne]

/-- C6 witness: with a primitive whose verification returns 0, `verify()`
completes normally and `valid` is `false`. -/
theorem C6_valid_iff_sentinel_witness :
    ∃ s' evs, run_blocking false false primZero .verifyK sVer = (.ok s', evs) ∧
      (s'.valid = some true ↔ (0 : Int) = 1) ∧ ((0 : Int) ≠ 1 → s'.valid = some false) :=
  C6_valid_iff_sentinel false false primZero sVer [3] [2] [1] 0 [] rfl rfl rfl rfl

/-- C7 counterexample: with progress reporting on, an operation whose
primitive call fails internally completes (with the error) while the progress
sink is never closed — `wrapped_task` has no try/finally around `task()`, so
`progressbar.close()` is skipped on failure, contradicting "closed exactly
once on success or failure". -/
theorem C7_counterexample :
    (run_blocking true false primBad .computeK sC1).1.isOk = false ∧
    (run_blocking true false primBad .computeK sC1).2.count PEvent.close = 0 := by
  decide

/-- C7 amended: with progress reporting on, the sink is (re)initialized with
`total = iterations` before anything else (the `init` event heads the log);
on successful completion it is closed exactly once, but on failure it is not
closed at all. -/
theorem C7_sink_lifecycle (pb0 : Bool) (prim : Primitive) (kind : TaskKind)
    (s : Sloth) :
    (run_blocking true pb0 prim kind s).2.head? = some (PEvent.init s.iterations) ∧
    ((run_blocking true pb0 prim kind s).1.isOk = true →
      (run_blocking true pb0 prim kind s).2.count PEvent.close = 1) ∧
    ((run_blocking true pb0 prim kind s).1.isOk = false →
      (run_blocking true pb0 prim kind s).2.count PEvent.close = 0) := by
  cases kind with
  | computeK =>
    cases hres : prim.sloth s.data s.bits s.iterations with
    | mk res ds =>
      cases res with
      | error e =>
        simp [run_blocking, hres, Except.isOk, Except.toBool, count_close_pbEvents]
      | ok p =>
        cases p with
        | mk w h64 =>
          simp [run_blocking, hres, Except.isOk, Except.toBool, List.count_append,
            count_close_pbEvents]
  | verifyK =>
    cases hw : s.witness with
    | none => simp [run_blocking, hw, Except.isOk, Except.toBool]
    | some w =>
      cases hres : prim.sloth_verification w w.length s.final_hash s.data s.bits
          s.iterations with
      | mk res ds =>
        cases res with
        | error e =>
          simp [run_blocking, hw, hres, Except.isOk, Except.toBool,
            count_close_pbEvents]
        | ok r =>
          simp [run_blocking, hw, hres, Except.isOk, Except.toBool,
            List.count_append, count_close_pbEvents]

/-- C7 amended witness: the lifecycle facts at a concrete successful run. -/
theorem C7_sink_lifecycle_witness :
    (run_blocking true false primOK .computeK sC1).2.head?
      = some (PEvent.init sC1.iterations) ∧
    ((run_blocking true false primOK .computeK sC1).1.isOk = true →
      (run_blocking true false primOK .computeK sC1).2.count PEvent.close = 1) ∧
    ((run_blocking true false primOK .computeK sC1).1.isOk = false →
      (run_blocking true false primOK .computeK sC1).2.count PEvent.close = 0) :=
  C7_sink_lifecycle false primOK .computeK sC1

/-- C8: a successful `compute()` publishes `witness` and `final_hash`
together as the single lock-guarded update `publish_compute`, and leaves
`valid` (and every other field) exactly as it was. -/
theorem C8_compute_publishes_atomically (progress pb0 : Bool) (prim : Primitive)
    (s s' : Sloth) (evs : List PEvent)
    (hrun : run_blocking progress pb0 prim .computeK s = (.ok s', evs)) :
    ∃ w h64 ds, prim.sloth s.data s.bits s.iterations = (.ok (w, h64), ds) ∧
      s' = publish_compute s w h64 ∧ s'.witness = some w ∧ s'.final_hash = some h64 ∧
      s'.valid = s.valid ∧ s'.data = s.data ∧ s'.bits = s.bits ∧
      s'.iterations = s.iterations ∧ s'.blocking = s.blocking := by
  obtain ⟨w, h64, ds, hsloth, hs'⟩ := run_blocking_computeK_ok hrun
  subst hs'
  exact ⟨w, h64, ds, hsloth, rfl, rfl, rfl, rfl, rfl, rfl, rfl, rfl⟩

/-- C8 witness: the publication facts at a concrete successful `compute()`. -/
theorem C8_compute_publishes_atomically_witness :
    ∃ w h64 ds, primOK.sloth sC1.data sC1.bits sC1.iterations = (.ok (w, h64), ds) ∧
      publish_compute sC1 [7] (List.replicate 64 0) = publish_compute sC1 w h64 ∧
      (publish_compute sC1 [7] (List.replicate 64 0)).witness = some w ∧
      (publish_compute sC1 [7] (List.replicate 64 0)).final_hash = some h64 ∧
      (publish_compute sC1 [7] (List.replicate 64 0)).valid = sC1.valid ∧
      (publish_compute sC1 [7] (List.replicate 64 0)).data = sC1.data ∧
      (publish_compute sC1 [7] (List.replicate 64 0)).bits = sC1.bits ∧
      (publish_compute sC1 [7] (List.replicate 64 0)).iterations = sC1.iterations ∧
      (publish_compute sC1 [7] (List.replicate 64 0)).blocking = sC1.blocking :=
  C8_compute_publishes_atomically false false primOK sC1
    (publish_compute sC1 [7] (List.replicate 64 0)) [] rfl

/-- C9: the computation result (the new field state, or the propagated
exception) of a `compute()`/`verify()` run is identical whether progress
reporting is enabled or disabled — the no-op sink is substitutable with zero
behavioral difference, whatever the prior state of the global progressbar. -/
theorem C9_progress_noninterference (pb0 pb0' : Bool) (prim : Primitive)
    (kind : TaskKind) (s : Sloth) :
    (run_blocking true pb0 prim kind s).1 = (run_blocking false pb0' prim kind s).1 := by
  cases kind with
  | computeK =>
    cases hres : prim.sloth s.data s.bits s.iterations with
    | mk res ds =>
      cases res with
      | error e => simp [run_blocking, hres]
      | ok p => cases p with
        | mk w h64 => simp [run_blocking, hres]
  | verifyK =>
    cases hw : s.witness with
    | none => simp [run_blocking, hw]
    | some w =>
      cases hres : prim.sloth_verification w w.length s.final_hash s.data s.bits
          s.iterations with
      | mk res ds =>
        cases res with
        | error e => simp [run_blocking, hw, hres]
        | ok r => simp [run_blocking, hw, hres]

theorem isFinished_false_of_queued {w : Worker} (h : w.status = .queued) :
    w.isFinished = false := by
  cases w with
  | mk k st =>
    cases st with
    | queued => rfl
    | inPrim t snap => simp at h
    | finished res => simp at h

theorem isFinished_false_of_inPrim {w : Worker} {t : Nat} {snap : Sloth}
    (h : w.status = .inPrim t snap) : w.isFinished = false := by
  cases w with
  | mk k st =>
    cases st with
    | queued => rfl
    | inPrim t2 snap2 => rfl
    | finished res => simp at h

theorem lt_length_of_getElem? {α : Type} {l : List α} {i : Nat} {a : α}
    (h : l[i]? = some a) : i < l.length := by
  rcases List.getElem?_eq_some.mp h with ⟨hlt, _⟩
  exact hlt

/-- In an invariant configuration, any worker that has not terminated is the
most recently spawned one. -/
theorem unfinished_last {c : Config} (hc : MachInv c) {i : Nat} {w : Worker}
    (hw : c.workers[i]? = some w) (hnf : w.isFinished = false) :
    i + 1 = c.workers.length := by
  have hi := lt_length_of_getElem? hw
  by_cases h : i + 1 < c.workers.length
  · have hfin := hc.finishedBefore i w hw h
    rw [hfin] at hnf
    exact absurd hnf (by simp)
  · omega

/-- Every machine step preserves the invariant. -/
theorem machInv_step {prim : Primitive} {c c' : Config}
    (h : Step prim c c') (hc : MachInv c) : MachInv c' := by
  cases h with
  | workerBegin i w hw hq hcan =>
    have hi := lt_length_of_getElem? hw
    have hpos : c.workers ≠ [] := List.length_pos.mp (by omega)
    constructor
    · intro _
      rw [List.length_set]
      exact hc.curLast hpos
    · intro j w' hw' hj
      rw [List.length_set] at hj
      by_cases hij : i = j
      · subst hij
        have hlast := unfinished_last hc hw (isFinished_false_of_queued hq)
        omega
      · rw [List.getElem?_set_ne hij] at hw'
        exact hc.finishedBefore j w' hw' hj
    · exact hc.wfLe
    · exact hc.wfOrd
    · intro p hp
      exact le_trans (hc.endsLE p hp) (Nat.le_succ _)
    · intro j w' hw' t snap hst
      by_cases hij : i = j
      · subst hij
        rw [List.getElem?_set_eq_of_lt _ hi] at hw'
        have hw'' : w'.status = WStatus.inPrim c.clock c.st := by
          cases hw'
          rfl
        rw [hw''] at hst
        injection hst with h1 h2
        subst h1
        exact ⟨Nat.le_succ _, fun p hp => hc.endsLE p hp⟩
      · rw [List.getElem?_set_ne hij] at hw'
        obtain ⟨h1, h2⟩ := hc.active j w' hw' t snap hst
        exact ⟨le_trans h1 (Nat.le_succ _), h2⟩
  | workerAssertFail i w hw hq hk hwit =>
    have hi := lt_length_of_getElem? hw
    have hpos : c.workers ≠ [] := List.length_pos.mp (by omega)
    constructor
    · intro _
      rw [List.length_set]
      exact hc.curLast hpos
    · intro j w' hw' hj
      rw [List.length_set] at hj
      by_cases hij : i = j
      · subst hij
        rw [List.getElem?_set_eq_of_lt _ hi] at hw'
        cases hw'
        rfl
      · rw [List.getElem?_set_ne hij] at hw'
        exact hc.finishedBefore j w' hw' hj
    · exact hc.wfLe
    · exact hc.wfOrd
    · intro p hp
      exact le_trans (hc.endsLE p hp) (Nat.le_succ _)
    · intro j w' hw' t snap hst
      by_cases hij : i = j
      · subst hij
        rw [List.getElem?_set_eq_of_lt _ hi] at hw'
        cases hw'
        simp at hst
      · rw [List.getElem?_set_ne hij] at hw'
        obtain ⟨h1, h2⟩ := hc.active j w' hw' t snap hst
        exact ⟨le_trans h1 (Nat.le_succ _), h2⟩
  | workerEnd i w since snap st2 res hw hs hrun =>
    have hi := lt_length_of_getElem? hw
    have hpos : c.workers ≠ [] := List.length_pos.mp (by omega)
    have hlast := unfinished_last hc hw (isFinished_false_of_inPrim hs)
    obtain ⟨hsince, hends⟩ := hc.active i w hw since snap hs
    constructor
    · intro _
      rw [List.length_set]
      exact hc.curLast hpos
    · intro j w' hw' hj
      rw [List.length_set] at hj
      by_cases hij : i = j
      · subst hij
        rw [List.getElem?_set_eq_of_lt _ hi] at hw'
        cases hw'
        rfl
      · rw [List.getElem?_set_ne hij] at hw'
        exact hc.finishedBefore j w' hw' hj
    · intro p hp
      rcases List.mem_append.mp hp with hold | hnew
      · exact hc.wfLe p hold
      · rcases List.mem_singleton.mp hnew with rfl
        exact hsince
    · rw [List.pairwise_append]
      refine ⟨hc.wfOrd, List.pairwise_singleton _ _, ?_⟩
      intro a ha b hb
      rcases List.mem_singleton.mp hb with rfl
      exact hends a ha
    · intro p hp
      rcases List.mem_append.mp hp with hold | hnew
      · exact le_trans (hc.endsLE p hold) (Nat.le_succ _)
      · rcases List.mem_singleton.mp hnew with rfl
        exact Nat.le_succ _
    · intro j w' hw' t snap' hst
      by_cases hij : i = j
      · subst hij
        rw [List.getElem?_set_eq_of_lt _ hi] at hw'
        cases hw'
        simp at hst
      · rw [List.getElem?_set_ne hij] at hw'
        have hjlast := unfinished_last hc hw' (isFinished_false_of_inPrim hst)
        omega
  | callOp k rest hph hs =>
    constructor
    · exact hc.curLast
    · exact hc.finishedBefore
    · exact hc.wfLe
    · exact hc.wfOrd
    · intro p hp
      exact le_trans (hc.endsLE p hp) (Nat.le_succ _)
    · intro j w' hw' t snap hst
      obtain ⟨h1, h2⟩ := hc.active j w' hw' t snap hst
      exact ⟨le_trans h1 (Nat.le_succ _), h2⟩
  | joinDone k hph hjr =>
    constructor
    · intro _
      simp [List.length_append]
    · intro j w' hw' hj'
      rw [List.length_append] at hj'
      simp only [List.length_cons, List.length_nil] at hj'
      have hjlt : j < c.workers.length := by omega
      rw [List.getElem?_append_left hjlt] at hw'
      by_cases hcase : j + 1 < c.workers.length
      · exact hc.finishedBefore j w' hw' hcase
      · have hjeq : j + 1 = c.workers.length := by omega
        have hpos : c.workers ≠ [] := List.length_pos.mp (by omega)
        have hcur := hc.curLast hpos
        unfold joinReady at hjr
        rw [hcur] at hjr
        obtain ⟨wfin, hwfin, hfin⟩ := hjr
        have : c.workers.length - 1 = j := by omega
        rw [this] at hwfin
        rw [hwfin] at hw'
        cases hw'
        exact hfin
    · exact hc.wfLe
    · exact hc.wfOrd
    · intro p hp
      exact le_trans (hc.endsLE p hp) (Nat.le_succ _)
    · intro j w' hw' t snap hst
      have hjlt : j < c.workers.length + 1 := by
        have := lt_length_of_getElem? hw'
        simpa [List.length_append] using this
      by_cases hcase : j < c.workers.length
      · rw [List.getElem?_append_left hcase] at hw'
        obtain ⟨h1, h2⟩ := hc.active j w' hw' t snap hst
        exact ⟨le_trans h1 (Nat.le_succ _), h2⟩
      · have hjeq : j = c.workers.length := by omega
        subst hjeq
        rw [List.getElem?_concat_length] at hw'
        cases hw'
        simp at hst
  | waitDone rest hph hs hjr =>
    constructor
    · exact hc.curLast
    · exact hc.finishedBefore
    · exact hc.wfLe
    · exact hc.wfOrd
    · intro p hp
      exact le_trans (hc.endsLE p hp) (Nat.le_succ _)
    · intro j w' hw' t snap hst
      obtain ⟨h1, h2⟩ := hc.active j w' hw' t snap hst
      exact ⟨le_trans h1 (Nat.le_succ _), h2⟩

/-- The initial configuration satisfies the invariant. -/
theorem machInv_initConfig (s0 : Sloth) (script : List Act) :
    MachInv (initConfig s0 script) := by
  constructor
  · intro h
    exact absurd rfl h
  · intro i w hw _
    simp [initConfig] at hw
  · intro p hp
    simp [initConfig] at hp
  · simp [initConfig]
  · intro p hp
    simp [initConfig] at hp
  · intro i w hw
    simp [initConfig] at hw

/-- The invariant holds in every reachable configuration. -/
theorem machInv_reachable {prim : Primitive} {c0 c : Config} (h0 : MachInv c0)
    (h : Relation.ReflTransGen (Step prim) c0 c) : MachInv c := by
  induction h with
  | refl => exact h0
  | tail _ hstep ih => exact machInv_step hstep ih

/-- C4: in background mode, operations on the same task are serialized:
in every configuration reachable from a fresh task under any script and any
scheduling, the completed primitive-call intervals are pairwise
non-overlapping, and at most one worker is ever inside the primitive. -/
theorem C4_no_concurrent_primitive_runs (prim : Primitive) (s0 : Sloth)
    (script : List Act) (c : Config)
    (h : Relation.ReflTransGen (Step prim) (initConfig s0 script) c) :
    (c.intervals.Pairwise fun a b => a.2 ≤ b.1 ∨ b.2 ≤ a.1) ∧
    (∀ (i j : Nat) (wi wj : Worker) (ti tj : Nat) (si sj : Sloth),
      c.workers[i]? = some wi → c.workers[j]? = some wj →
      wi.status = .inPrim ti si → wj.status = .inPrim tj sj → i = j) := by
  have hinv := machInv_reachable (machInv_initConfig s0 script) h
  constructor
  · exact hinv.wfOrd.imp (fun hab => Or.inl hab)
  · intro i j wi wj ti tj si sj hwi hwj hsi hsj
    have hi := unfinished_last hinv hwi (isFinished_false_of_inPrim hsi)
    have hj := unfinished_last hinv hwj (isFinished_false_of_inPrim hsj)
    omega

/-- C4 witness: the serialization conclusions at the initial configuration
of a concrete task. -/
theorem C4_no_concurrent_primitive_runs_witness :
    ((initConfig sC1 []).intervals.Pairwise fun a b => a.2 ≤ b.1 ∨ b.2 ≤ a.1) ∧
    (∀ (i j : Nat) (wi wj : Worker) (ti tj : Nat) (si sj : Sloth),
      (initConfig sC1 []).workers[i]? = some wi →
      (initConfig sC1 []).workers[j]? = some wj →
      wi.status = .inPrim ti si → wj.status = .inPrim tj sj → i = j) :=
  C4_no_concurrent_primitive_runs primOK sC1 [] (initConfig sC1 [])
    Relation.ReflTransGen.refl

theorem c3_step1 : Step primOK (initConfig s3 [Act.op .verifyK]) c3b :=
  Step.callOp (initConfig s3 [Act.op .verifyK]) .verifyK [] rfl rfl

theorem c3_step2 : Step primOK c3b c3c :=
  Step.joinDone c3b .verifyK rfl trivial

theorem c3_step3 : Step primOK c3c c3d :=
  Step.workerAssertFail c3c 0 ⟨.verifyK, .queued⟩ rfl rfl rfl rfl

/-- The complete background run of `verify()` on a witness-less task: the
call returns to the caller after spawning the worker, and the assertion
fires on the worker thread. -/
theorem c3_chain :
    Relation.ReflTransGen (Step primOK) (initConfig s3 [Act.op .verifyK]) c3d :=
  Relation.ReflTransGen.head c3_step1
    (Relation.ReflTransGen.head c3_step2 (Relation.ReflTransGen.single c3_step3))

/-- C3 counterexample: in background mode, `verify()` on a task whose
witness is unset does spawn a worker — the run reaches a configuration in
which a worker was created and the assertion failure happened on that
worker's thread (its recorded outcome), with the witness still unset and the
primitive never entered (no interval) — contradicting "before any worker is
spawned". -/
theorem C3_counterexample :
    Relation.ReflTransGen (Step primOK) (initConfig s3 [Act.op .verifyK]) c3d ∧
    c3d.st.witness = none ∧
    c3d.workers = [⟨.verifyK, .finished (.error .assertionError)⟩] ∧
    c3d.intervals = [] ∧ c3d.script = [] :=
  ⟨c3_chain, rfl, rfl, rfl, rfl⟩

/-- C3 amended: `verify()` with no witness fails with the task's assertion
error before any call into the primitive (the whole outcome is independent
of the primitive), synchronously in blocking mode; in background mode,
however, the worker is spawned first and the assertion failure occurs on the
worker thread, as the execution of `c3_chain` shows. -/
theorem C3_verify_precondition (progress pb0 : Bool) (prim prim2 : Primitive)
    (s : Sloth) (hwit : s.witness = none) :
    (run_blocking progress pb0 prim .verifyK s).1 = .error .assertionError ∧
    run_blocking progress pb0 prim .verifyK s =
      run_blocking progress pb0 prim2 .verifyK s ∧
    (Relation.ReflTransGen (Step primOK) (initConfig s3 [Act.op .verifyK]) c3d ∧
      c3d.workers = [⟨.verifyK, .finished (.error .assertionError)⟩] ∧
      c3d.intervals = []) := by
  refine ⟨?_, ?_, c3_chain, rfl, rfl⟩
  · simp [run_blocking, hwit]
  · simp [run_blocking, hwit]

/-- C3 amended witness: the precondition behavior at a concrete
witness-less task, for two different primitives. -/
theorem C3_verify_precondition_witness :
    (run_blocking false false primOK .verifyK s3).1 = .error .assertionError ∧
    run_blocking false false primOK .verifyK s3 =
      run_blocking false false primBad .verifyK s3 ∧
    (Relation.ReflTransGen (Step primOK) (initConfig s3 [Act.op .verifyK]) c3d ∧
      c3d.workers = [⟨.verifyK, .finished (.error .assertionError)⟩] ∧
      c3d.intervals = []) :=
  C3_verify_precondition false false primOK primBad s3 rfl

theorem c5_step1 : Step primBad (initConfig s5 [Act.op .computeK, Act.wait]) c5b :=
  Step.callOp (initConfig s5 [Act.op .computeK, Act.wait]) .computeK [Act.wait]
    rfl rfl

theorem c5_step2 : Step primBad c5b c5c :=
  Step.joinDone c5b .computeK rfl trivial

theorem c5_step3 : Step primBad c5c c5d :=
  Step.workerBegin c5c 0 ⟨.computeK, .queued⟩ rfl rfl rfl

theorem c5_step4 : Step primBad c5d c5e :=
  Step.workerEnd c5d 0 ⟨.computeK, .inPrim 2 s5⟩ 2 s5 s5 (.error .primFailure)
    rfl rfl rfl

theorem c5_step5 : Step primBad c5e c5f :=
  Step.waitDone c5e [] rfl rfl ⟨⟨.computeK, .finished (.error .primFailure)⟩, rfl, rfl⟩

/-- The complete background run of `compute()` with a failing primitive,
followed by `wait()`: the worker dies with the failure and the join
completes normally. -/
theorem c5_chain :
    Relation.ReflTransGen (Step primBad) (initConfig s5 [Act.op .computeK, Act.wait])
      c5f :=
  Relation.ReflTransGen.head c5_step1 (Relation.ReflTransGen.head c5_step2
    (Relation.ReflTransGen.head c5_step3 (Relation.ReflTransGen.head c5_step4
      (Relation.ReflTransGen.single c5_step5))))

theorem v5_step1 : Step primBad (initConfig s6 [Act.op .verifyK, Act.wait]) v5b :=
  Step.callOp (initConfig s6 [Act.op .verifyK, Act.wait]) .verifyK [Act.wait]
    rfl rfl

theorem v5_step2 : Step primBad v5b v5c :=
  Step.joinDone v5b .verifyK rfl trivial

theorem v5_step3 : Step primBad v5c v5d :=
  Step.workerBegin v5c 0 ⟨.verifyK, .queued⟩ rfl rfl rfl

theorem v5_step4 : Step primBad v5d v5e :=
  Step.workerEnd v5d 0 ⟨.verifyK, .inPrim 2 s6⟩ 2 s6 s6 (.error .primFailure)
    rfl rfl rfl

theorem v5_step5 : Step primBad v5e v5f :=
  Step.waitDone v5e [] rfl rfl
    ⟨⟨.verifyK, .finished (.error .primFailure)⟩, rfl, rfl⟩

/-- The complete background run of `verify()` with a failing primitive,
followed by `wait()`: the worker dies with the failure and the join
completes normally. -/
theorem c5v_chain :
    Relation.ReflTransGen (Step primBad) (initConfig s6 [Act.op .verifyK, Act.wait])
      v5f :=
  Relation.ReflTransGen.head v5_step1 (Relation.ReflTransGen.head v5_step2
    (Relation.ReflTransGen.head v5_step3 (Relation.ReflTransGen.head v5_step4
      (Relation.ReflTransGen.single v5_step5))))

/-- C5 counterexample: in background mode, a `compute()` whose primitive
fails internally, followed by `wait()`, runs to completion with the failure
recorded only in the dead worker: `wait()` returns normally (the script is
consumed) and every task field is unchanged — nothing re-surfaces the
failure to the caller on `wait()` or on result access, contradicting the
claim. -/
theorem C5_counterexample :
    Relation.ReflTransGen (Step primBad) (initConfig s5 [Act.op .computeK, Act.wait])
      c5f ∧
    c5f.script = [] ∧ c5f.st = s5 ∧
    c5f.workers = [⟨.computeK, .finished (.error .primFailure)⟩] :=
  ⟨c5_chain, rfl, rfl, rfl⟩

/-- C5 amended: a primitive failure is fatal and never retried; in blocking
mode it propagates synchronously to the caller of `compute()` and of
`verify()`, but in background mode it only terminates the worker: the
subsequent `wait()` completes normally and the task's fields stay unchanged
(the failure is dropped rather than captured and re-surfaced), as the
executions of `c5_chain` (compute) and `c5v_chain` (verify) show. -/
theorem C5_failure_surfacing (progress pb0 : Bool) (prim : Primitive) (s : Sloth)
    (e e2 : PyErr) (ds ds2 : List Int) (w : Bytes)
    (hfail : prim.sloth s.data s.bits s.iterations = (.error e, ds))
    (hwit : s.witness = some w)
    (hfail2 : prim.sloth_verification w w.length s.final_hash s.data s.bits
      s.iterations = (.error e2, ds2)) :
    (run_blocking progress pb0 prim .computeK s).1 = .error e ∧
    (run_blocking progress pb0 prim .verifyK s).1 = .error e2 ∧
    (Relation.ReflTransGen (Step primBad)
        (initConfig s5 [Act.op .computeK, Act.wait]) c5f ∧
      c5f.script = [] ∧ c5f.st = s5) ∧
    (Relation.ReflTransGen (Step primBad)
        (initConfig s6 [Act.op .verifyK, Act.wait]) v5f ∧
      v5f.script = [] ∧ v5f.st = s6) := by
  refine ⟨?_, ?_, ⟨c5_chain, rfl, rfl⟩, ⟨c5v_chain, rfl, rfl⟩⟩
  · simp [run_blocking, hfail]
  · simp [run_blocking, hwit, hfail2]

/-- C5 amended witness: the surfacing behavior at a concrete primitive that
fails during both compute and verify, on a task with a witness set. -/
theorem C5_failure_surfacing_witness :
    (run_blocking false false primBad .computeK s6).1 = .error .primFailure ∧
    (run_blocking false false primBad .verifyK s6).1 = .error .primFailure ∧
    (Relation.ReflTransGen (Step primBad)
        (initConfig s5 [Act.op .computeK, Act.wait]) c5f ∧
      c5f.script = [] ∧ c5f.st = s5) ∧
    (Relation.ReflTransGen (Step primBad)
        (initConfig s6 [Act.op .verifyK, Act.wait]) v5f ∧
      v5f.script = [] ∧ v5f.st = s6) :=
  C5_failure_surfacing false false primBad s6 .primFailure .primFailure [] [] [3]
    rfl rfl rfl

theorem bstep_thread (progress pb0 : Bool) (prim : Primitive) (t : TaskObj)
    (a : BAct) : (bstep progress pb0 prim t a).thread = t.thread := by
  cases a with
  | computeA =>
    simp only [bstep]
    cases (run_blocking progress pb0 prim .computeK t.fields).1 <;> rfl
  | verifyA =>
    simp only [bstep]
    cases (run_blocking progress pb0 prim .verifyK t.fields).1 <;> rfl
  | waitA timeout =>
    cases h : t.thread <;> simp [bstep, wait_call, h]

theorem execB_thread (progress pb0 : Bool) (prim : Primitive) (acts : List BAct)
    (t : TaskObj) : (execB progress pb0 prim acts t).thread = t.thread := by
  induction acts generalizing t with
  | nil => rfl
  | cons a rest ih =>
    rw [execB, ih, bstep_thread]

/-- C10: a task constructed in blocking mode starts with `_thread = None`,
keeps it `None` across any sequence of `compute()`, `verify()` and `wait()`
calls, and therefore `wait(timeout)`, for every timeout, returns immediately
as a no-op. -/
theorem C10_blocking_thread_stays_none (progress pb0 : Bool) (prim : Primitive)
    (acts : List BAct) (s : Sloth) (hb : s.blocking = true) :
    (mkTask s).thread = none ∧
    (execB progress pb0 prim acts (mkTask s)).thread = none ∧
    ∀ timeout, wait_call (execB progress pb0 prim acts (mkTask s)) timeout =
      (execB progress pb0 prim acts (mkTask s), false) := by
  have hth : (execB progress pb0 prim acts (mkTask s)).thread = none :=
    execB_thread progress pb0 prim acts (mkTask s)
  refine ⟨rfl, hth, ?_⟩
  intro timeout
  unfold wait_call
  rw [hth]

/-- C10 witness: the thread-absence facts on a concrete blocking-mode task
after a `compute()` and a `wait()`. -/
theorem C10_blocking_thread_stays_none_witness :
    (mkTask sC1).thread = none ∧
    (execB false false primOK [BAct.computeA, BAct.waitA none] (mkTask sC1)).thread
      = none ∧
    ∀ timeout, wait_call
        (execB false false primOK [BAct.computeA, BAct.waitA none] (mkTask sC1))
        timeout =
      (execB false false primOK [BAct.computeA, BAct.waitA none] (mkTask sC1),
        false) :=
  C10_blocking_thread_stays_none false false primOK [BAct.computeA, BAct.waitA none]
    sC1 rfl
